import Mathlib

/-!
Verification development for the news-classifier pipeline (`src/app.py`).

The Python program fetches HTML pages for a table of (headline, link) rows,
extracts a publication date via a six-tier fallback chain (`extract_date`),
classifies the article text by keyword rules (`classify_article`), scores the
headline/article TF-IDF cosine similarity (`compare_headline_to_article`) and
appends two columns to the table (`process_dataframe`).

External collaborators are modelled as parameters, following the program's
architecture: the date normalizer (`dateparser.parse` with DATE_ORDER=DMY) is a
`Normalizer` parameter, the JSON decoder (`json.loads`) is a `JsonParser`
parameter, and the network fetch plus BeautifulSoup parse of a page is a
`String → Soup` parameter.  A `Soup` holds the query results the code extracts
from a parsed document: the meta tags, the script blocks, the first `<time>`
element, the elements bearing class/id attributes, the full visible text and
the paragraph texts.  All dates are plain `year/month/day` naturals.
-/

/-- Calendar date, the result of `dateparser.parse(...).date()`. -/
structure Date where
  year : Nat
  month : Nat
  day : Nat
deriving DecidableEq

/-- The external date normalizer: `dateparser.parse(s, settings=DATE_ORDER DMY)`,
returning `none` when the string has no parseable date (it never raises). -/
def Normalizer : Type := String → Option Date

/-- JSON values as decoded by `json.loads`. -/
inductive JsonVal where
  | dict (fields : List (String × JsonVal))
  | list (items : List JsonVal)
  | str (s : String)
  | num (n : Int)
  | bool (b : Bool)
  | null

/-- The external JSON decoder `json.loads`: `none` models a raised decode error. -/
def JsonParser : Type := String → Option JsonVal

/-- Python truthiness for decoded JSON values. -/
def jsonTruthy : JsonVal → Bool
  | .dict fields => !fields.isEmpty
  | .list items => !items.isEmpty
  | .str s => s ≠ ""
  | .num n => n ≠ 0
  | .bool b => b
  | .null => false

/-- Lowercase a string character by character (Python `str.lower()` on ASCII text). -/
def pyLower (s : String) : String := String.mk (s.toList.map Char.toLower)

/-- Does `needle` occur as a contiguous sublist of the character list?  This is
Python's `needle in hay` substring test. -/
def containsChars (needle : List Char) : List Char → Bool
  | [] => needle.isEmpty
  | c :: cs => needle.isPrefixOf (c :: cs) || containsChars needle cs

/-- Python substring containment `needle in hay`. -/
def containsStr (hay needle : String) : Bool := containsChars needle.toList hay.toList

/-- The keyword classifier `classify_article` (src/app.py lines 124-133): lowercase
the text, then first-match-wins over three substring co-occurrence rules. -/
def classify_article (text : String) : String :=
  let t := pyLower text
  if containsStr t "india" &&
      (["positive", "success", "support", "development"].any (fun w => containsStr t w)) then
    "Pro-India"
  else if containsStr t "china" &&
      (["sanction", "tariff", "ban", "conflict", "tension"].any (fun w => containsStr t w)) then
    "Anti-China"
  else if containsStr t "pakistan" &&
      (["polio", "terror", "crisis", "restriction", "attack"].any (fun w => containsStr t w)) then
    "Anti-Pakistan"
  else
    "Miscellaneous"

/-- A `<meta>` tag: the attributes the code queries, plus its `content` attribute. -/
structure MetaTag where
  property : Option String
  nameAttr : Option String
  itemprop : Option String
  content : Option String
deriving DecidableEq

/-- One attribute filter from the `meta_tags` list in `extract_date`. -/
inductive MetaQuery where
  | prop (v : String)
  | nm (v : String)
  | item (v : String)
deriving DecidableEq

/-- Does a meta tag match a `soup.find('meta', {attr: value})` filter? -/
def metaMatches (q : MetaQuery) (m : MetaTag) : Bool :=
  match q with
  | .prop v => m.property == some v
  | .nm v => m.nameAttr == some v
  | .item v => m.itemprop == some v

/-- BeautifulSoup `soup.find('meta', q)`: first matching meta tag in document order. -/
def findMeta (metas : List MetaTag) (q : MetaQuery) : Option MetaTag :=
  metas.find? (metaMatches q)

/-- The fixed preference order of meta attribute filters (src/app.py lines 46-51). -/
def meta_tags : List MetaQuery :=
  [.prop "article:published_time", .nm "pubdate", .nm "date", .item "datePublished"]

/-- The candidate of one meta query: the found tag's `content` when present and
non-empty (Python `if meta and meta.get('content')`), else `none`. -/
def metaContentOf (metas : List MetaTag) (q : MetaQuery) : Option String :=
  match findMeta metas q with
  | some m =>
    match m.content with
    | some c => if c = "" then none else some c
    | none => none
  | none => none

/-- Tier 1 of `extract_date` (lines 45-57): scan the meta queries in order; a found
tag with truthy content is parsed, and a parse failure moves on to the next query. -/
def tier1go (n : Normalizer) (metas : List MetaTag) : List MetaQuery → Option Date
  | [] => none
  | q :: qs =>
    match findMeta metas q with
    | some m =>
      match m.content with
      | some c =>
        if c = "" then tier1go n metas qs
        else
          match n c with
          | some d => some d
          | none => tier1go n metas qs
      | none => tier1go n metas qs
    | none => tier1go n metas qs

/-- A `<script>` block: its `type` attribute and its string content
(`tag.string`, which BeautifulSoup reports as `None` for non-text children). -/
structure Script where
  typeAttr : Option String
  content : Option String
deriving DecidableEq

/-- The `type` attribute value that selects structured-data blocks. -/
def ldJsonType : String := "application/ld+json"

/-- The `soup.find_all('script', type='application/ld+json')` result. -/
def ldScripts (scripts : List Script) : List Script :=
  scripts.filter (fun s => s.typeAttr == some ldJsonType)

/-- Python `dict.get(k)` on the decoded JSON object fields. -/
def getField (fields : List (String × JsonVal)) (k : String) : Option JsonVal :=
  (fields.find? (fun p => p.1 == k)).map (fun p => p.2)

/-- The outcome of processing one JSON-LD candidate inside tier 2: a parsed date,
a silent continue, or a raised exception (non-string date value / non-dict item)
that aborts the enclosing script block via `except: continue`. -/
inductive ScanRes where
  | found (d : Date)
  | cont
  | err
deriving DecidableEq

/-- Tier 2 treatment of one decoded JSON object:
`date_str = data.get('datePublished') or data.get('dateCreated')` followed by a
truthiness test and `dateparser.parse(date_str)` (which raises on non-strings). -/
def dictDate (n : Normalizer) (fields : List (String × JsonVal)) : ScanRes :=
  let v1 := getField fields "datePublished"
  let chosen :=
    match v1 with
    | some v => if jsonTruthy v then some v else getField fields "dateCreated"
    | none => getField fields "dateCreated"
  match chosen with
  | some v =>
    if jsonTruthy v then
      match v with
      | .str s =>
        match n s with
        | some d => .found d
        | none => .cont
      | _ => .err
    else .cont
  | none => .cont

/-- Tier 2 iteration over the items of a decoded JSON list: items are checked in
sequence; a non-dict item raises (`item.get`), aborting the whole block. -/
def scanItems (n : Normalizer) : List JsonVal → ScanRes
  | [] => .cont
  | item :: rest =>
    match item with
    | .dict fields =>
      match dictDate n fields with
      | .found d => .found d
      | .cont => scanItems n rest
      | .err => .err
    | _ => .err

/-- Tier 2 of `extract_date` (lines 59-78): decode each JSON-LD script block; any
failure (`except: continue`) moves to the next block; a decoded dict or list is
searched for the first parseable `datePublished`/`dateCreated` value. -/
def tier2 (n : Normalizer) (j : JsonParser) : List Script → Option Date
  | [] => none
  | s :: rest =>
    match s.content with
    | none => tier2 n j rest
    | some str =>
      match j str with
      | none => tier2 n j rest
      | some v =>
        match v with
        | .dict fields =>
          match dictDate n fields with
          | .found d => some d
          | _ => tier2 n j rest
        | .list items =>
          match scanItems n items with
          | .found d => some d
          | _ => tier2 n j rest
        | _ => tier2 n j rest

/-- The first `<time>` element: its `datetime` attribute and stripped visible text. -/
structure TimeTag where
  datetime : Option String
  text : String
deriving DecidableEq

/-- Tier 3 of `extract_date` (lines 80-87): the `<time>` tag's `datetime`
attribute, falling back to its text by Python `or` truthiness. -/
def tier3 (n : Normalizer) : Option TimeTag → Option Date
  | none => none
  | some t =>
    let date_str :=
      match t.datetime with
      | some s => if s = "" then t.text else s
      | none => t.text
    if date_str = "" then none
    else
      match n date_str with
      | some d => some d
      | none => none

/-- An element carrying class/id attributes, as seen by `soup.find(attrs=...)`:
its class tokens, its id attribute and its stripped visible text. -/
structure Elem where
  classes : List String
  idAttr : Option String
  text : String
deriving DecidableEq

/-- The class/id substring selectors of tier 4 (line 90). -/
def selectors : List String := ["date", "published", "pubdate", "post-date", "article-date"]

/-- Case-insensitive substring test, `re.compile(sel, re.I).search(value)` for a
selector with no regex metacharacters. -/
def containsCI (needle hay : String) : Bool :=
  containsChars (pyLower needle).toList (pyLower hay).toList

/-- Does an element's multi-valued `class` attribute match the selector regex?
BeautifulSoup applies the pattern to each class token. -/
def elemMatchesClass (sel : String) (e : Elem) : Bool :=
  e.classes.any (fun c => containsCI sel c)

/-- Does an element's `id` attribute match the selector regex? -/
def elemMatchesId (sel : String) (e : Elem) : Bool :=
  match e.idAttr with
  | some v => containsCI sel v
  | none => false

/-- Tier 4 of `extract_date` (lines 89-98): for each selector, find the first
element by class, falling back to id; parse its text; on failure move to the
next selector. -/
def tier4go (n : Normalizer) (elems : List Elem) : List String → Option Date
  | [] => none
  | sel :: rest =>
    let tag :=
      match elems.find? (elemMatchesClass sel) with
      | some t => some t
      | none => elems.find? (elemMatchesId sel)
    match tag with
    | some t =>
      match n t.text with
      | some d => some d
      | none => tier4go n elems rest
    | none => tier4go n elems rest

/-- Python regex `\s` on ASCII text. -/
def isSpaceChar (c : Char) : Bool :=
  c = ' ' || c = '\t' || c = '\n' || c = '\r' || c = '\x0b' || c = '\x0c'

/-- Python regex `\w` on ASCII text: alphanumeric or underscore. -/
def isWordChar (c : Char) : Bool := c.isAlphanum || c = '_'

/-- The double-quote character. -/
def quoteD : Char := '"'

/-- The single-quote character (written by code point to keep it out of literals). -/
def quoteS : Char := Char.ofNat 39

/-- Is the character one of the two quote characters of the tier-5 regex? -/
def isQuote (c : Char) : Bool := c = quoteD || c = quoteS

/-- Strip `pat` from the front of `l`, comparing case-insensitively (`(?i)`). -/
def stripCI : List Char → List Char → Option (List Char)
  | [], l => some l
  | _ :: _, [] => none
  | p :: ps, c :: cs => if p.toLower = c.toLower then stripCI ps cs else none

/-- The characters of the literal `datePublished`. -/
def keyCore : List Char := "datePublished".toList

/-- The characters of the literal `published_time`. -/
def pubTimeKey : List Char := "published_time".toList

/-- The alternation `(?:"datePublished"|'datePublished'|published_time)` of the
tier-5 regex (line 104), tried in order, case-insensitively. -/
def matchKeyAlt (l : List Char) : Option (List Char) :=
  match stripCI (quoteD :: keyCore ++ [quoteD]) l with
  | some r => some r
  | none =>
    match stripCI (quoteS :: keyCore ++ [quoteS]) l with
    | some r => some r
    | none => stripCI pubTimeKey l

/-- Try the full tier-5 regex at the start of `l`:
`(?i)(?:"datePublished"|'datePublished'|published_time)["']?\s*[:=]\s*["']([^"']+)["']`.
On success, return the capture group and the remainder after the match. -/
def tryMatchPub (l : List Char) : Option (List Char × List Char) :=
  match matchKeyAlt l with
  | none => none
  | some r1 =>
    let r2 :=
      match r1 with
      | c :: cs => if isQuote c then cs else r1
      | [] => r1
    let r3 := r2.dropWhile isSpaceChar
    match r3 with
    | c :: cs =>
      if c = ':' || c = '=' then
        let r4 := cs.dropWhile isSpaceChar
        match r4 with
        | q :: cs2 =>
          if isQuote q then
            let cap := cs2.takeWhile (fun ch => !isQuote ch)
            match cs2.dropWhile (fun ch => !isQuote ch) with
            | _ :: rest => if cap.isEmpty then none else some (cap, rest)
            | [] => none
          else none
        | [] => none
      else none
    | [] => none

/-- Left-to-right non-overlapping scan (`re.findall`): `skip` counts characters
still inside the previous match.  After a match at the current position we
continue at the match end: one character is consumed by the step itself and the
remaining `cs.length - rest.length` are skipped. -/
def scanGo : Nat → List Char → List (List Char)
  | _, [] => []
  | skip + 1, _ :: cs => scanGo skip cs
  | 0, c :: cs =>
    match tryMatchPub (c :: cs) with
    | some (cap, rest) => cap :: scanGo (cs.length - rest.length) cs
    | none => scanGo 0 cs

/-- All capture groups of the tier-5 regex over one script body (`re.findall`). -/
def findPublishedMatches (s : String) : List String :=
  (scanGo 0 s.toList).map (fun l => String.mk l)

/-- Tier 5 of `extract_date` (lines 100-109): scan every script block's string
content for `datePublished`-like key/value literals; return the first capture
the normalizer parses. -/
def tier5 (n : Normalizer) : List Script → Option Date
  | [] => none
  | s :: rest =>
    match s.content with
    | none => tier5 n rest
    | some str =>
      if str = "" then tier5 n rest
      else
        match ((findPublishedMatches str).filterMap n).head? with
        | some d => some d
        | none => tier5 n rest

/-- The twelve month-name prefixes of the tier-6 regex, lowercased. -/
def monthsLower : List String :=
  ["jan", "feb", "mar", "apr", "may", "jun", "jul", "aug", "sep", "oct", "nov", "dec"]

/-- Match the month alternation `(?:Jan|...|Dec)` case-insensitively at the
start of `l`, returning the three matched characters. -/
def monthAt (l : List Char) : Option (List Char) :=
  if monthsLower.any (fun mo => (l.take 3).map Char.toLower == mo.toList) then
    some (l.take 3)
  else none

/-- Option guard for one regex condition. -/
def guardB (b : Bool) : Option Unit := if b then some () else none

/-- The word-boundary test `\b` before the leading digit of the tier-6
pattern: satisfied at the start of the text or after a non-word character. -/
def boundaryOk (prev : Option Char) : Bool :=
  match prev with
  | none => true
  | some c => !isWordChar c

/-- Try the tier-6 regex at the current position:
`\b\d{1,2}\s(?:Jan|...|Dec)[a-z]*\s\d{4}\b` with `re.IGNORECASE` (line 113).
`prev` is the character before the position, for the word-boundary test.  The
maximal digit run must have length 1 or 2 (a longer run cannot satisfy `\s`
even after backtracking), `[a-z]*` must swallow its whole letter run (any
shorter split leaves a letter where `\s` is required), and the year run must
be exactly 4 digits followed by a word boundary. -/
def matchDateAt (prev : Option Char) (l : List Char) : Option (List Char) := do
  let _ ← guardB (boundaryOk prev)
  let ds := l.takeWhile Char.isDigit
  let _ ← guardB (ds.length = 1 || ds.length = 2)
  let sp1 ← (l.dropWhile Char.isDigit).head?
  let rest1 := (l.dropWhile Char.isDigit).tail
  let _ ← guardB (isSpaceChar sp1)
  let mon ← monthAt rest1
  let rest2 := rest1.drop 3
  let letters := rest2.takeWhile Char.isAlpha
  let sp2 ← (rest2.dropWhile Char.isAlpha).head?
  let rest3 := (rest2.dropWhile Char.isAlpha).tail
  let _ ← guardB (isSpaceChar sp2)
  let ys := rest3.takeWhile Char.isDigit
  let _ ← guardB (ys.length = 4)
  let _ ← guardB (boundaryOk (rest3.dropWhile Char.isDigit).head?)
  return ds ++ sp1 :: (mon ++ letters ++ sp2 :: ys)

/-- Does the character list contain one of the month-name prefixes,
case-insensitively? -/
def hasMonthChars (l : List Char) : Bool :=
  monthsLower.any (fun mo => containsChars mo.toList (l.map Char.toLower))

/-- Does the string contain a month name, case-insensitively? -/
def hasMonthName (s : String) : Bool := hasMonthChars s.toList

/-- Leftmost match of the tier-6 regex (`re.search`). -/
def searchDateGo (prev : Option Char) : List Char → Option (List Char)
  | [] => none
  | c :: cs =>
    match matchDateAt prev (c :: cs) with
    | some m => some m
    | none => searchDateGo (some c) cs

/-- The matched text of `re.search(r'\b\d{1,2}\s(?:Jan|...)[a-z]*\s\d{4}\b', text, re.I)`. -/
def findDatePattern (s : String) : Option String :=
  (searchDateGo none s.toList).map (fun l => String.mk l)

/-- Tier 6 of `extract_date` (lines 111-118): search the document's full visible
text for the month-name date pattern and normalize the first match. -/
def tier6 (n : Normalizer) (text : String) : Option Date :=
  match findDatePattern text with
  | some m =>
    match n m with
    | some d => some d
    | none => none
  | none => none

/-- The query results the code reads from one BeautifulSoup-parsed document:
meta tags, script blocks, the first `<time>` tag, the elements with class/id
attributes, `soup.get_text(separator=' ')`, and the `<p>` texts. -/
structure Soup where
  metas : List MetaTag
  scripts : List Script
  timeTag : Option TimeTag
  elems : List Elem
  fullText : String
  paragraphs : List String
deriving DecidableEq

/-- The date extraction engine `extract_date` (src/app.py lines 41-122): the six
tiers are tried in order and the first normalized date wins; every tier handles
its own failures, and exhaustion returns `None` (line 122), never an error. -/
def extract_date (n : Normalizer) (j : JsonParser) (doc : Soup) : Option Date :=
  match tier1go n doc.metas meta_tags with
  | some d => some d
  | none =>
  match tier2 n j (ldScripts doc.scripts) with
  | some d => some d
  | none =>
  match tier3 n doc.timeTag with
  | some d => some d
  | none =>
  match tier4go n doc.elems selectors with
  | some d => some d
  | none =>
  match tier5 n doc.scripts with
  | some d => some d
  | none => tier6 n doc.fullText

/-- Join character lists with a separator (Python `sep.join(parts)`). -/
def joinWith (sep : List Char) : List (List Char) → List Char
  | [] => []
  | [x] => x
  | x :: y :: rest => x ++ sep ++ joinWith sep (y :: rest)

/-- Python `str.strip()` on ASCII whitespace. -/
def pyStrip (s : String) : String :=
  String.mk (((s.toList.dropWhile isSpaceChar).reverse.dropWhile isSpaceChar).reverse)

/-- The text extractor `extract_article_text` (lines 25-31): join the paragraph
texts with single spaces and strip the ends. -/
def extract_article_text (doc : Soup) : String :=
  pyStrip (String.mk (joinWith [' '] (doc.paragraphs.map String.toList)))

/-- Zero-padded two-digit field of `strftime`. -/
def pad2 (n : Nat) : String := if n < 10 then "0" ++ toString n else toString n

/-- The output date format `date.strftime("%d/%m/%Y")` (line 148). -/
def fmtDate (d : Date) : String :=
  pad2 d.day ++ "/" ++ pad2 d.month ++ "/" ++ toString d.year

/-- Maximal runs of word characters in a character list, for the sklearn token
pattern `\b\w\w+\b`: a maximal run matches iff its length is at least 2. -/
def wordRunsGo (cur : List Char) : List Char → List (List Char)
  | [] => if cur.isEmpty then [] else [cur.reverse]
  | c :: cs =>
    if isWordChar c then wordRunsGo (c :: cur) cs
    else if cur.isEmpty then wordRunsGo [] cs
    else cur.reverse :: wordRunsGo [] cs

/-- The sklearn `TfidfVectorizer` tokenizer: lowercase, then the maximal word
runs of length at least 2 (`token_pattern=r"(?u)\b\w\w+\b"`, `lowercase=True`). -/
def tokens (s : String) : List String :=
  ((wordRunsGo [] (pyLower s).toList).filter (fun r => 2 ≤ r.length)).map
    (fun l => String.mk l)

/-- The joint vocabulary fitted over exactly the two documents.  sklearn sorts
it; we deduplicate in first-seen order, which leaves every sum below unchanged. -/
def vocab (h a : String) : List String := (tokens h ++ tokens a).dedup

/-- Raw term frequency of term `t` in document `d`. -/
def tf (d t : String) : Nat := (tokens d).count t

/-- Document frequency of `t` over the two fitted documents. -/
def df2 (h a t : String) : Nat :=
  (if t ∈ tokens h then 1 else 0) + (if t ∈ tokens a then 1 else 0)

/-- sklearn smoothed inverse document frequency with `n = 2` documents:
`ln((1 + n) / (1 + df)) + 1`. -/
noncomputable def idf (h a t : String) : ℝ :=
  Real.log (3 / (1 + (df2 h a t : ℝ))) + 1

/-- One TF-IDF vector component of document `d` in the joint fit over `h`, `a`. -/
noncomputable def tfidfWeight (h a d t : String) : ℝ := (tf d t : ℝ) * idf h a t

/-- The similarity scorer `compare_headline_to_article` (src/app.py lines 33-39):
cosine similarity of the two jointly fitted TF-IDF vectors.  An empty fitted
vocabulary makes `TfidfVectorizer` raise, and the `except` returns `0`; a
zero vector yields cosine `0` (and division by a zero norm is `0` in Lean,
matching sklearn's treatment of zero rows). -/
noncomputable def compare_headline_to_article (headline article : String) : ℝ :=
  if vocab headline article = [] then 0
  else
    let V := (vocab headline article).toFinset
    let wh := fun t => tfidfWeight headline article headline t
    let wa := fun t => tfidfWeight headline article article t
    (∑ t in V, wh t * wa t) /
      (Real.sqrt (∑ t in V, wh t ^ 2) * Real.sqrt (∑ t in V, wa t ^ 2))

/-- One loop iteration of `process_dataframe` (lines 142-153): fetch and parse
the link, extract the article text, compute (and discard) the similarity score
exactly as line 145 does, and produce the formatted date and the label. -/
def processRow (sim : String → String → ℝ) (n : Normalizer) (j : JsonParser)
    (fetch : String → Soup) (headline link : String) : String × String :=
  let doc := fetch link
  let article := extract_article_text doc
  let _score := sim headline article
  let date :=
    match extract_date n j doc with
    | some d => fmtDate d
    | none => ""
  (date, classify_article article)

/-- The tabular pipeline `process_dataframe` (src/app.py lines 135-165) over a
row-major grid of cells: headlines are read from column 1 and links from
column 2 of every row after the header row; the header row receives the two
column labels at positions `width` and `width + 1`, and data row `i` receives
`dates[i-1]` and `labels[i-1]` in those columns, which appends exactly the two
computed cells to each row. -/
def process_dataframe (sim : String → String → ℝ) (n : Normalizer) (j : JsonParser)
    (fetch : String → Soup) (df : List (List String)) : List (List String) :=
  match df with
  | [] => []
  | hd :: tl =>
    (hd ++ ["Extracted Date", "Classification"]) ::
      tl.map (fun r =>
        let p := processRow sim n j fetch (r.getD 1 "") (r.getD 2 "")
        r ++ [p.1, p.2])

/-- A concrete date normalizer used to instantiate the theorems: it parses three
fixed date strings the way `dateparser` does under `DATE_ORDER='DMY'` and
rejects everything else. -/
def testNormalize : Normalizer := fun s =>
  if s = "15/12/2024" then some ⟨2024, 12, 15⟩
  else if s = "15 Dec 2024" then some ⟨2024, 12, 15⟩
  else if s = "2023-01-02" then some ⟨2023, 1, 2⟩
  else none

/-- A decoded JSON-LD list: the first object's date string does not parse, the
second object's `dateCreated` does. -/
def payloadList : JsonVal :=
  .list [.dict [("datePublished", .str "junk")], .dict [("dateCreated", .str "15/12/2024")]]

/-- A concrete JSON decoder: decodes the fixed string `"payload"` to
`payloadList` and fails on everything else. -/
def testJsonParse : JsonParser := fun s =>
  if s = "payload" then some payloadList else none

/-- A document with no date signal in any tier. -/
def emptySoup : Soup := ⟨[], [], none, [], "", []⟩

/-- A fetcher for which every retrieval fails: `fetch_html` returns `""` and
parsing the empty page yields a document with no content. -/
def emptyFetch : String → Soup := fun _ => emptySoup

/-- A similarity scorer constantly `0`. -/
noncomputable def simZero : String → String → ℝ := fun _ _ => 0

/-- A similarity scorer constantly `1`. -/
noncomputable def simOne : String → String → ℝ := fun _ _ => 1

/-- Witness document for tier-1 precedence: a parseable
`article:published_time` meta tag plus conflicting date signals in tiers 3
and 6. -/
def c1doc : Soup :=
  ⟨[⟨some "article:published_time", none, none, some "15/12/2024"⟩],
   [], some ⟨some "2023-01-02", ""⟩, [], "15 Dec 2024", []⟩

/-- Counterexample document for the one-candidate-per-tier claim: the first
meta query finds non-empty but unparseable content, the second meta query
finds a parseable date, and every other tier is empty. -/
def c4doc : Soup :=
  ⟨[⟨some "article:published_time", none, none, some "garbage"⟩,
    ⟨none, some "pubdate", none, some "15/12/2024"⟩],
   [], none, [], "", []⟩

/-- The claim's own tier-1 candidate rule, modelled from the spec sentence
"First tag present with non-empty content wins this tier": the content of the
first meta query (in the fixed preference order) whose tag is present with
non-empty content. -/
def firstNonEmptyMetaContent (metas : List MetaTag) : Option String :=
  (meta_tags.filterMap (fun q => metaContentOf metas q)).head?

/-- Counterexample document for the tier-6 claim: the only date signal is a
numeric D/M/Y date in the visible text. -/
def c7doc : Soup := ⟨[], [], none, [], "Published 15/12/2024", []⟩

/-- Witness document for the JSON-LD list claim: no meta tags, one structured
data block decoding to `payloadList`. -/
def c8doc : Soup := ⟨[], [⟨some ldJsonType, some "payload"⟩], none, [], "", []⟩

/-- A fetcher returning a fixed page whose only paragraph is `"art"`. -/
def artFetch : String → Soup := fun _ => ⟨[], [], none, [], "art", ["art"]⟩

/-- A small concrete input table: a header row and one data row whose headline
is in column 1 and link in column 2. -/
def cdf : List (List String) := [["id", "Headline", "Link"], ["1", "h", "u"]]

/-- The same table with the header row and the data row's column 0 changed;
columns 1 and 2 of the data row are untouched. -/
def cdf2 : List (List String) := [["x", "y", "z"], ["999", "h", "u"]]

/-- The date a single decoded JSON object contributes, when its processing does
not raise: `some d` when its publication/creation field is a truthy string the
normalizer parses, `none` otherwise. -/
def dictDateOpt (n : Normalizer) : JsonVal → Option Date
  | .dict fields =>
    match dictDate n fields with
    | .found d => some d
    | _ => none
  | _ => none

/-- Is a JSON-LD list item an object whose processing cannot raise (its chosen
date field, when truthy, is a string)? -/
def itemSafe (n : Normalizer) : JsonVal → Bool
  | .dict fields =>
    match dictDate n fields with
    | .err => false
    | _ => true
  | _ => false

/-- Unfolding step of the tier-1 scan: the head query contributes
`(metaContentOf metas q).bind n` and a miss recurses on the tail. -/
theorem tier1go_cons (n : Normalizer) (metas : List MetaTag) (q : MetaQuery)
    (qs : List MetaQuery) :
    tier1go n metas (q :: qs) =
      match (metaContentOf metas q).bind n with
      | some d => some d
      | none => tier1go n metas qs := by
  simp only [tier1go, metaContentOf]
  cases h : findMeta metas q with
  | none => rfl
  | some m =>
    cases hc : m.content with
    | none => simp [hc]
    | some c =>
      by_cases he : c = ""
      · simp [hc, he]
      · cases hn : n c <;> simp [hc, he, hn]

/-- Tier 1 characterisation: the scan over meta queries returns the first query
(in the fixed order) whose non-empty content the normalizer parses, skipping
queries whose tag is absent, whose content is missing or empty, or whose
content fails to parse. -/
theorem tier1go_eq_head_filterMap (n : Normalizer) (metas : List MetaTag) :
    ∀ qs : List MetaQuery,
      tier1go n metas qs = (qs.filterMap (fun q => (metaContentOf metas q).bind n)).head?
  | [] => rfl
  | q :: qs => by
    rw [tier1go_cons, List.filterMap_cons]
    cases hq : (metaContentOf metas q).bind n with
    | none => simpa using tier1go_eq_head_filterMap n metas qs
    | some d => simp

/-- When tier 1 produces a date, the engine returns it without consulting any
later tier. -/
theorem extract_date_of_tier1 (n : Normalizer) (j : JsonParser) (doc : Soup) (d : Date)
    (h : tier1go n doc.metas meta_tags = some d) : extract_date n j doc = some d := by
  unfold extract_date
  rw [h]

/-- C1: for every document in which some meta query of the fixed preference
order (`article:published_time` property, `pubdate` name, `date` name,
`datePublished` itemprop) finds a tag with non-empty content that the
normalizer parses — all earlier queries yielding no parseable candidate — the
date extraction engine returns that tag's normalized value, whatever date
signals the later tiers of the document hold. -/
theorem meta_tier_first_parse_wins (n : Normalizer) (j : JsonParser) (doc : Soup)
    (d : Date) (i : Nat) (hi : i < meta_tags.length)
    (hp : (metaContentOf doc.metas (meta_tags.getD i (.prop ""))).bind n = some d)
    (hk : ∀ k, k < i → (metaContentOf doc.metas (meta_tags.getD k (.prop ""))).bind n = none) :
    extract_date n j doc = some d := by
  apply extract_date_of_tier1
  rw [tier1go_eq_head_filterMap]
  have h4 : i < 4 := by simpa [meta_tags] using hi
  interval_cases i
  · simp only [meta_tags, List.getD_cons_zero] at hp
    simp [meta_tags, List.filterMap_cons, hp]
  · have e0 := hk 0 (by omega)
    simp only [meta_tags, List.getD_cons_zero, List.getD_cons_succ] at hp e0
    simp [meta_tags, List.filterMap_cons, hp, e0]
  · have e0 := hk 0 (by omega)
    have e1 := hk 1 (by omega)
    simp only [meta_tags, List.getD_cons_zero, List.getD_cons_succ] at hp e0 e1
    simp [meta_tags, List.filterMap_cons, hp, e0, e1]
  · have e0 := hk 0 (by omega)
    have e1 := hk 1 (by omega)
    have e2 := hk 2 (by omega)
    simp only [meta_tags, List.getD_cons_zero, List.getD_cons_succ] at hp e0 e1 e2
    simp [meta_tags, List.filterMap_cons, hp, e0, e1, e2]

/-- Witness for C1: the meta tag parses to 15 December 2024 while the document
also carries a conflicting `<time datetime="2023-01-02">` in tier 3 and the
conflicting text `15 Dec 2024` in tier 6. -/
theorem meta_tier_first_parse_wins_witness :
    extract_date testNormalize testJsonParse c1doc = some ⟨2024, 12, 15⟩ :=
  meta_tier_first_parse_wins testNormalize testJsonParse c1doc ⟨2024, 12, 15⟩ 0
    (by decide) (by decide) (fun k hk => absurd hk (Nat.not_lt_zero k))

/-- C2: the classifier always returns one of the four labels; the India rule has
priority over the others (text matching rule 1 is labelled Pro-India even when
it also contains a China-negative signal), matching being case-insensitive
substring containment on the lowercased text; and empty text is Miscellaneous. -/
theorem classify_article_spec :
    (∀ t, classify_article t = "Pro-India" ∨ classify_article t = "Anti-China" ∨
      classify_article t = "Anti-Pakistan" ∨ classify_article t = "Miscellaneous")
  ∧ (∀ t, containsStr (pyLower t) "india" = true →
      (["positive", "success", "support", "development"].any
        (fun w => containsStr (pyLower t) w)) = true →
      classify_article t = "Pro-India")
  ∧ classify_article "" = "Miscellaneous" := by
  refine ⟨?_, ?_, rfl⟩
  · intro t
    unfold classify_article
    dsimp only
    split_ifs <;> simp
  · intro t h1 h2
    unfold classify_article
    dsimp only
    simp [h1, h2]

/-- Witness for C2: the India keyword sits inside the longer word `Bindia` and
the positive keyword inside `developments` (substring matching), while the text
also contains the China-negative pair `china`/`tension`; rule 1 still wins. -/
theorem classify_article_spec_witness :
    classify_article "Bindia developments amid China tension" = "Pro-India" :=
  classify_article_spec.2.1 "Bindia developments amid China tension" (by decide) (by decide)

/-- C3: the engine is total — modelled without any exception escape — and when
all six tiers produce no normalizable candidate it returns `none`, the
absence-of-date value of line 122. -/
theorem extract_date_exhaustion (n : Normalizer) (j : JsonParser) (doc : Soup)
    (h1 : tier1go n doc.metas meta_tags = none)
    (h2 : tier2 n j (ldScripts doc.scripts) = none)
    (h3 : tier3 n doc.timeTag = none)
    (h4 : tier4go n doc.elems selectors = none)
    (h5 : tier5 n doc.scripts = none)
    (h6 : tier6 n doc.fullText = none) :
    extract_date n j doc = none := by
  unfold extract_date
  rw [h1, h2, h3, h4, h5, h6]

/-- Witness for C3: the empty document (also what a failed or malformed fetch
parses to) yields `none` through all six tiers. -/
theorem extract_date_exhaustion_witness :
    extract_date testNormalize testJsonParse emptySoup = none :=
  extract_date_exhaustion testNormalize testJsonParse emptySoup rfl rfl rfl rfl rfl rfl

/-- Counterexample to C4: in `c4doc` the first meta tag present with non-empty
content holds the unparseable string `garbage`, and every other tier of the
document is empty, so under the claim (one candidate per tier, normalization
failure moves to the next tier) the engine would return `none`; the code
instead moves to the next meta query inside tier 1 and returns the `pubdate`
tag's date. -/
theorem tier_single_candidate_cex :
    extract_date testNormalize testJsonParse c4doc = some ⟨2024, 12, 15⟩
  ∧ firstNonEmptyMetaContent c4doc.metas = some "garbage"
  ∧ testNormalize "garbage" = none
  ∧ tier2 testNormalize testJsonParse (ldScripts c4doc.scripts) = none
  ∧ tier3 testNormalize c4doc.timeTag = none
  ∧ tier4go testNormalize c4doc.elems selectors = none
  ∧ tier5 testNormalize c4doc.scripts = none
  ∧ tier6 testNormalize c4doc.fullText = none := by
  refine ⟨by decide, by decide, rfl, rfl, rfl, rfl, rfl, rfl⟩

/-- C4 as amended: a tier may hold several candidates and a failed
normalization moves to the tier's next candidate before falling to the next
tier; tier 1 returns the first meta query, in the fixed preference order,
whose non-empty content the normalizer parses; and a found meta tag whose
content is the empty string is skipped, never a hit. -/
theorem tier1_candidates_in_order :
    (∀ (n : Normalizer) (metas : List MetaTag),
      tier1go n metas meta_tags =
        (meta_tags.filterMap (fun q => (metaContentOf metas q).bind n)).head?)
  ∧ (∀ (metas : List MetaTag) (q : MetaQuery) (m : MetaTag),
      findMeta metas q = some m → m.content = some "" → metaContentOf metas q = none) := by
  constructor
  · intro n metas
    exact tier1go_eq_head_filterMap n metas meta_tags
  · intro metas q m hf hc
    simp [metaContentOf, hf, hc]

/-- Witness for the amended C4, applied at the counterexample document and at a
meta tag with empty content. -/
theorem tier1_candidates_in_order_witness :
    tier1go testNormalize c4doc.metas meta_tags =
      (meta_tags.filterMap
        (fun q => (metaContentOf c4doc.metas q).bind testNormalize)).head?
  ∧ metaContentOf [⟨none, some "pubdate", none, some ""⟩] (.nm "pubdate") = none :=
  ⟨tier1_candidates_in_order.1 testNormalize c4doc.metas,
   tier1_candidates_in_order.2 [⟨none, some "pubdate", none, some ""⟩] (.nm "pubdate")
     ⟨none, some "pubdate", none, some ""⟩ (by decide) rfl⟩

/-- Counterexample to C5: two similarity scorers that disagree on the very
(headline, article) pair of the processed row produce identical pipeline
output — the similarity score computed at line 145 is discarded and is not a
component of the row's output unit. -/
theorem similarity_dropped_cex :
    process_dataframe simZero testNormalize testJsonParse artFetch cdf =
      process_dataframe simOne testNormalize testJsonParse artFetch cdf
  ∧ simZero "h" (extract_article_text (artFetch "u")) ≠
      simOne "h" (extract_article_text (artFetch "u")) := by
  refine ⟨rfl, ?_⟩
  simp [simZero, simOne]

/-- C5 as amended: the assembled output row is the input row's cells with the
formatted date and the label appended; the similarity score, though computed
per row, is not part of the output unit — the pipeline output is invariant
under any change of the similarity scorer. -/
theorem similarity_not_in_output (simA simB : String → String → ℝ) (n : Normalizer)
    (j : JsonParser) (fetch : String → Soup) (df : List (List String)) :
    process_dataframe simA n j fetch df = process_dataframe simB n j fetch df := rfl

/-- Relating positional lookup with default to optional lookup. -/
theorem list_getD_of_get? {α : Type} {l : List α} {i : Nat} {r : α} (d : α)
    (h : l.get? i = some r) : l.getD i d = r := by
  simp only [List.getD_eq_getElem?_getD, List.get?_eq_getElem?] at h ⊢
  simp [h]

/-- C6: the pipeline output has the same number of rows as the input in the
same order; the header row is the input header with exactly the two labels
`Extracted Date` and `Classification` appended; and every data row — whatever
its fetch and extraction produce, including total failure — is the input row
with exactly the formatted date (or `""` when absent) and the label appended. -/
theorem process_dataframe_shape (sim : String → String → ℝ) (n : Normalizer)
    (j : JsonParser) (fetch : String → Soup) (df : List (List String))
    (hne : df ≠ []) (hw : ∀ r ∈ df, 3 ≤ r.length) :
    (process_dataframe sim n j fetch df).length = df.length
  ∧ (process_dataframe sim n j fetch df).get? 0 =
      some (df.getD 0 [] ++ ["Extracted Date", "Classification"])
  ∧ (∀ i, 1 ≤ i → i < df.length →
      (process_dataframe sim n j fetch df).get? i =
        some (df.getD i [] ++
          [(processRow sim n j fetch ((df.getD i []).getD 1 "") ((df.getD i []).getD 2 "")).1,
           (processRow sim n j fetch ((df.getD i []).getD 1 "") ((df.getD i []).getD 2 "")).2])) := by
  obtain ⟨hd, tl, rfl⟩ := List.exists_cons_of_ne_nil hne
  refine ⟨by simp [process_dataframe], by simp [process_dataframe], ?_⟩
  intro i h1 h2
  cases i with
  | zero => omega
  | succ k =>
    have hk : k < tl.length := by simpa using h2
    cases hr : tl.get? k with
    | none =>
      rw [List.get?_eq_none] at hr
      omega
    | some r =>
      have hd1 : (hd :: tl).getD (k + 1) [] = r := by
        rw [List.getD_cons_succ]
        exact list_getD_of_get? [] hr
      rw [hd1]
      simp only [process_dataframe, List.get?_cons_succ, List.get?_map, hr]
      rfl

/-- Witness for C6, on a table whose only data row fails its fetch entirely:
the row still yields a result row, with the empty date string and the
Miscellaneous label appended after the original cells. -/
theorem process_dataframe_shape_witness :
    (process_dataframe simZero testNormalize testJsonParse emptyFetch cdf).length = cdf.length
  ∧ (process_dataframe simZero testNormalize testJsonParse emptyFetch cdf).get? 1 =
      some ["1", "h", "u", "", "Miscellaneous"] := by
  have h := process_dataframe_shape simZero testNormalize testJsonParse emptyFetch cdf
    (by decide) (by decide)
  refine ⟨h.1, ?_⟩
  rw [h.2.2 1 (by omega) (by decide)]
  decide

/-- C10: the computed per-row results depend only on columns 1 (headline) and 2
(link) of the rows after the header row — two tables agreeing there produce the
same result pairs; the header row receives only the two appended column
labels; and the result computed from data row `i` of the input is written into
row `i` of the output. -/
theorem columns_and_positional_map :
    (∀ (sim : String → String → ℝ) (n : Normalizer) (j : JsonParser)
        (fetch : String → Soup) (df df' : List (List String)),
      df.length = df'.length →
      (∀ i, 1 ≤ i → i < df.length →
        (df.getD i []).getD 1 "" = (df'.getD i []).getD 1 "" ∧
        (df.getD i []).getD 2 "" = (df'.getD i []).getD 2 "") →
      (df.drop 1).map (fun r => processRow sim n j fetch (r.getD 1 "") (r.getD 2 "")) =
        (df'.drop 1).map (fun r => processRow sim n j fetch (r.getD 1 "") (r.getD 2 "")))
  ∧ (∀ (sim : String → String → ℝ) (n : Normalizer) (j : JsonParser)
        (fetch : String → Soup) (hd : List String) (tl : List (List String)),
      (process_dataframe sim n j fetch (hd :: tl)).get? 0 =
        some (hd ++ ["Extracted Date", "Classification"]))
  ∧ (∀ (sim : String → String → ℝ) (n : Normalizer) (j : JsonParser)
        (fetch : String → Soup) (hd : List String) (tl : List (List String)) (k : Nat),
      k < tl.length →
      (process_dataframe sim n j fetch (hd :: tl)).get? (k + 1) =
        Option.map (fun p => tl.getD k [] ++ [p.1, p.2])
          ((((hd :: tl).drop 1).map
            (fun r => processRow sim n j fetch (r.getD 1 "") (r.getD 2 ""))).get? k)) := by
  refine ⟨?_, ?_, ?_⟩
  · intro sim n j fetch df df' hlen hcols
    apply List.ext_get?
    intro k
    rw [List.get?_map, List.get?_map, List.get?_drop, List.get?_drop]
    by_cases hk : 1 + k < df.length
    · cases h : df.get? (1 + k) with
      | none =>
        rw [List.get?_eq_none] at h
        omega
      | some r =>
        cases h' : df'.get? (1 + k) with
        | none =>
          rw [List.get?_eq_none] at h'
          omega
        | some r' =>
          obtain ⟨hc1, hc2⟩ := hcols (1 + k) (by omega) hk
          rw [list_getD_of_get? [] h, list_getD_of_get? [] h'] at hc1 hc2
          simp only [List.getD_eq_getElem?_getD] at hc1 hc2
          simp [hc1, hc2]
    · rw [List.get?_eq_none.mpr (by omega), List.get?_eq_none.mpr (by omega)]
  · intro sim n j fetch hd tl
    simp [process_dataframe]
  · intro sim n j fetch hd tl k hk
    cases hr : tl.get? k with
    | none =>
      rw [List.get?_eq_none] at hr
      omega
    | some r =>
      have hd1 : tl.getD k [] = r := list_getD_of_get? [] hr
      simp only [process_dataframe, List.drop_succ_cons, List.drop_zero,
        List.get?_cons_succ, List.get?_map, hr, hd1]
      rfl

/-- Witness for C10: `cdf` and `cdf2` differ in the header row and in column 0
of the data row but agree on columns 1 and 2, so the computed result pairs
coincide. -/
theorem columns_and_positional_map_witness :
    (cdf.drop 1).map
      (fun r => processRow simZero testNormalize testJsonParse emptyFetch
        (r.getD 1 "") (r.getD 2 "")) =
    (cdf2.drop 1).map
      (fun r => processRow simZero testNormalize testJsonParse emptyFetch
        (r.getD 1 "") (r.getD 2 "")) :=
  columns_and_positional_map.1 simZero testNormalize testJsonParse emptyFetch cdf cdf2
    (by decide)
    (by
      intro i h1 h2
      have h2' : i < 2 := by simpa [cdf] using h2
      interval_cases i
      exact ⟨rfl, rfl⟩)

/-- Scanning a list of safe JSON objects returns the date of the first element
whose publication/creation field parses, as a first-success search. -/
theorem scanItems_eq_head_filterMap (n : Normalizer) :
    ∀ items : List JsonVal, items.all (itemSafe n) = true →
      scanItems n items =
        (match (items.filterMap (dictDateOpt n)).head? with
         | some d => ScanRes.found d
         | none => ScanRes.cont)
  | [], _ => rfl
  | item :: rest, hall => by
    rw [List.all_cons, Bool.and_eq_true] at hall
    obtain ⟨hsafe, hrest⟩ := hall
    cases item with
    | dict fields =>
      simp only [scanItems, List.filterMap_cons]
      cases hd : dictDate n fields with
      | found d => simp [dictDateOpt, hd]
      | cont =>
        have := scanItems_eq_head_filterMap n rest hrest
        simpa [dictDateOpt, hd] using this
      | err =>
        simp [itemSafe, hd] at hsafe
    | list items' => simp [itemSafe] at hsafe
    | str s => simp [itemSafe] at hsafe
    | num m => simp [itemSafe] at hsafe
    | bool b => simp [itemSafe] at hsafe
    | null => simp [itemSafe] at hsafe

/-- C8: when tier 1 yields nothing and the document's structured-data block
decodes to a list of objects none of which raises, tier 2 checks the elements
in sequence and the engine returns the normalized date of the first element
whose publication/creation date field parses; a block whose string is missing
or whose decode fails is skipped (`except: continue`), never an error. -/
theorem jsonld_list_first_parse :
    (∀ (n : Normalizer) (j : JsonParser) (doc : Soup) (s : Script) (str : String)
        (items : List JsonVal) (d : Date),
      tier1go n doc.metas meta_tags = none →
      ldScripts doc.scripts = [s] →
      s.content = some str →
      j str = some (.list items) →
      items.all (itemSafe n) = true →
      (items.filterMap (dictDateOpt n)).head? = some d →
      extract_date n j doc = some d)
  ∧ (∀ (n : Normalizer) (j : JsonParser) (s : Script) (rest : List Script),
      s.content = none → tier2 n j (s :: rest) = tier2 n j rest)
  ∧ (∀ (n : Normalizer) (j : JsonParser) (s : Script) (str : String) (rest : List Script),
      s.content = some str → j str = none → tier2 n j (s :: rest) = tier2 n j rest) := by
  refine ⟨?_, ?_, ?_⟩
  · intro n j doc s str items d h1 hld hc hj hall hh
    have hscan : scanItems n items = .found d := by
      rw [scanItems_eq_head_filterMap n items hall, hh]
    have h2 : tier2 n j (ldScripts doc.scripts) = some d := by
      rw [hld]
      simp only [tier2, hc, hj, hscan]
    unfold extract_date
    rw [h1, h2]
  · intro n j s rest hc
    simp only [tier2, hc]
  · intro n j s str rest hc hj
    simp only [tier2, hc, hj]

/-- Witness for C8: in `c8doc` the decoded list's first object has the
unparseable date `junk` and the second object's `dateCreated` parses, so the
engine returns the second element's date. -/
theorem jsonld_list_first_parse_witness :
    extract_date testNormalize testJsonParse c8doc = some ⟨2024, 12, 15⟩ :=
  jsonld_list_first_parse.1 testNormalize testJsonParse c8doc
    ⟨some ldJsonType, some "payload"⟩ "payload"
    [.dict [("datePublished", .str "junk")], .dict [("dateCreated", .str "15/12/2024")]]
    ⟨2024, 12, 15⟩ rfl rfl rfl rfl (by decide) (by decide)

/-- A list is a prefix of itself followed by anything. -/
theorem isPrefixOf_append_self : ∀ (p b : List Char), p.isPrefixOf (p ++ b) = true
  | [], _ => by simp [List.isPrefixOf]
  | x :: xs, b => by
    simp only [List.cons_append, List.isPrefixOf_cons₂_self]
    exact isPrefixOf_append_self xs b

/-- A pattern occurs in itself followed by anything. -/
theorem containsChars_append_left (p b : List Char) : containsChars p (p ++ b) = true := by
  cases p with
  | nil =>
    cases b with
    | nil => rfl
    | cons c cs => simp [containsChars, List.isPrefixOf]
  | cons x xs =>
    simp only [List.cons_append, containsChars, Bool.or_eq_true]
    left
    exact isPrefixOf_append_self (x :: xs) b

/-- Occurrence is preserved by prepending one character. -/
theorem containsChars_cons (p : List Char) (c : Char) (l : List Char)
    (h : containsChars p l = true) : containsChars p (c :: l) = true := by
  simp only [containsChars, Bool.or_eq_true]
  right
  exact h

/-- Occurrence is preserved by prepending any list. -/
theorem containsChars_append (p : List Char) : ∀ (a l : List Char),
    containsChars p l = true → containsChars p (a ++ l) = true
  | [], _, h => h
  | c :: cs, l, h => by
    simpa using containsChars_cons p c (cs ++ l) (containsChars_append p cs l h)

/-- A pattern occurs in any list exhibiting it in the middle. -/
theorem containsChars_middle (p a b : List Char) : containsChars p (a ++ (p ++ b)) = true :=
  containsChars_append p a (p ++ b) (containsChars_append_left p b)

/-- Month containment is preserved by prepending one character. -/
theorem hasMonthChars_cons (c : Char) (l : List Char)
    (h : hasMonthChars l = true) : hasMonthChars (c :: l) = true := by
  simp only [hasMonthChars, List.any_eq_true] at h ⊢
  obtain ⟨mo, hmo, hc⟩ := h
  exact ⟨mo, hmo, by simpa using containsChars_cons mo.toList c.toLower (l.map Char.toLower) hc⟩

/-- A successful month-alternation match yields the first three characters,
whose lowercase form is one of the month names. -/
theorem monthAt_spec (l mon : List Char) (h : monthAt l = some mon) :
    mon = l.take 3 ∧ ∃ mo ∈ monthsLower, mon.map Char.toLower = mo.toList := by
  unfold monthAt at h
  split at h
  · next hc =>
    obtain ⟨mo, hmo, hbeq⟩ := List.any_eq_true.mp hc
    cases h
    exact ⟨rfl, mo, hmo, by simpa using hbeq⟩
  · exact absurd h (by simp)

/-- Every successful position match of the tier-6 regex contains a month name —
both the matched text and the text it was found in do. -/
theorem matchDateAt_month (prev : Option Char) (l m : List Char)
    (h : matchDateAt prev l = some m) :
    hasMonthChars m = true ∧ hasMonthChars l = true := by
  unfold matchDateAt at h
  simp only [guardB, bind, Option.bind_eq_some, Option.ite_none_right_eq_some,
    Option.some.injEq, pure] at h
  obtain ⟨u1, hu1, u2, hu2, sp1, hsp1, u3, hu3, mon, hmon, sp2, hsp2, u4, hu4, u5, hu5,
    u6, hu6, hm⟩ := h
  obtain ⟨hmtake, mo, hmo, hlow⟩ := monthAt_spec _ mon hmon
  have hTmap : (l.dropWhile Char.isDigit).tail.map Char.toLower =
      mo.toList ++ ((l.dropWhile Char.isDigit).tail.drop 3).map Char.toLower := by
    conv_lhs => rw [← List.take_append_drop 3 (l.dropWhile Char.isDigit).tail]
    rw [List.map_append, ← hmtake, hlow]
  constructor
  · simp only [hasMonthChars, List.any_eq_true]
    refine ⟨mo, hmo, ?_⟩
    have hMmap : m.map Char.toLower =
        ((l.takeWhile Char.isDigit).map Char.toLower ++ [sp1.toLower]) ++
          (mo.toList ++
            (((List.drop 3 (l.dropWhile Char.isDigit).tail).takeWhile Char.isAlpha).map
                Char.toLower ++
              sp2.toLower ::
                (((List.drop 3 (l.dropWhile Char.isDigit).tail).dropWhile
                    Char.isAlpha).tail.takeWhile Char.isDigit).map Char.toLower)) := by
      rw [← hm]
      simp [List.map_append, List.map_cons, List.append_assoc, hlow]
    rw [hMmap]
    exact containsChars_middle _ _ _
  · simp only [hasMonthChars, List.any_eq_true]
    refine ⟨mo, hmo, ?_⟩
    have hLmap : l.map Char.toLower =
        ((l.takeWhile Char.isDigit).map Char.toLower ++ [sp1.toLower]) ++
          (mo.toList ++ ((l.dropWhile Char.isDigit).tail.drop 3).map Char.toLower) := by
      conv_lhs =>
        rw [← List.takeWhile_append_dropWhile (p := Char.isDigit) (l := l),
          ← List.cons_head?_tail hsp1]
      rw [List.map_append, List.map_cons, hTmap]
      simp [List.append_assoc]
    rw [hLmap]
    exact containsChars_middle _ _ _

/-- A successful leftmost search implies a month name in the match and in the
searched text. -/
theorem searchDateGo_month : ∀ (prev : Option Char) (l m : List Char),
    searchDateGo prev l = some m → hasMonthChars m = true ∧ hasMonthChars l = true
  | prev, [], m, h => by simp [searchDateGo] at h
  | prev, c :: cs, m, h => by
    simp only [searchDateGo] at h
    cases hat : matchDateAt prev (c :: cs) with
    | some m' =>
      rw [hat] at h
      cases h
      exact matchDateAt_month prev (c :: cs) m hat
    | none =>
      rw [hat] at h
      obtain ⟨h1, h2⟩ := searchDateGo_month (some c) cs m h
      exact ⟨h1, hasMonthChars_cons c cs h2⟩

/-- Counterexample to C7: the page text carries only the numeric D/M/Y date
`15/12/2024`, which the normalizer would parse, yet the engine extracts no
date — the tier-6 regex knows only the month-name pattern, not numeric dates. -/
theorem numeric_date_not_matched_cex :
    extract_date testNormalize testJsonParse c7doc = none
  ∧ containsStr c7doc.fullText "15/12/2024" = true
  ∧ testNormalize "15/12/2024" = some ⟨2024, 12, 15⟩ := by
  refine ⟨by decide, by decide, rfl⟩

/-- C7 as amended: tier 6 searches the full visible text only for the
month-name pattern (a 1-2 digit day, a space, a month-name prefix with
optional trailing letters, a space, a 4-digit year, at word boundaries) and
takes the first match; any text without a month-name substring — a bare
4-digit year in particular — yields no tier-6 candidate, and every match
contains a month name. -/
theorem tier6_month_name_only :
    (∀ (n : Normalizer) (text : String),
      hasMonthName text = false → tier6 n text = none)
  ∧ (∀ (text s : String), findDatePattern text = some s → hasMonthName s = true) := by
  have hfind : ∀ (text s : String), findDatePattern text = some s →
      hasMonthName s = true ∧ hasMonthName text = true := by
    intro text s h
    simp only [findDatePattern, Option.map_eq_some'] at h
    obtain ⟨l, hl, rfl⟩ := h
    have := searchDateGo_month none text.toList l hl
    exact ⟨this.1, this.2⟩
  constructor
  · intro n text hmn
    unfold tier6
    cases hf : findDatePattern text with
    | none => rfl
    | some s =>
      have := (hfind text s hf).2
      rw [hmn] at this
      cases this
  · intro text s h
    exact (hfind text s h).1

/-- Witness for the amended C7: a text holding only a bare year yields no
tier-6 date. -/
theorem tier6_month_name_only_witness :
    tier6 testNormalize "Copyright 2024" = none :=
  tier6_month_name_only.1 testNormalize "Copyright 2024" (by decide)

/-- A term's document frequency over the two fitted documents is at most 2. -/
theorem df2_le_two (h a t : String) : df2 h a t ≤ 2 := by
  unfold df2
  split_ifs <;> omega

/-- The smoothed inverse document frequency is at least 1. -/
theorem one_le_idf (h a t : String) : 1 ≤ idf h a t := by
  unfold idf
  have h1 : (0 : ℝ) < 1 + (df2 h a t : ℝ) := by positivity
  have h2 : (1 : ℝ) ≤ 3 / (1 + (df2 h a t : ℝ)) := by
    rw [le_div_iff h1]
    have hd : (df2 h a t : ℝ) ≤ 2 := by exact_mod_cast df2_le_two h a t
    linarith
  have := Real.log_nonneg h2
  linarith

/-- TF-IDF vector components are nonnegative. -/
theorem tfidfWeight_nonneg (h a d t : String) : 0 ≤ tfidfWeight h a d t := by
  unfold tfidfWeight
  have h1 : (0 : ℝ) ≤ (tf d t : ℝ) := by positivity
  have h2 := one_le_idf h a t
  nlinarith

/-- Counterexample to C9: the headline and article are the identical non-empty
string `a`, yet the score is 0, not 1 — the single character yields no token of
length at least 2, the fitted vocabulary is empty, `TfidfVectorizer` raises,
and the `except` returns 0. -/
theorem identical_tokenless_zero_cex :
    compare_headline_to_article "a" "a" = 0 ∧ ("a" : String) ≠ "" ∧ (0 : ℝ) ≠ 1 := by
  refine ⟨?_, by decide, by norm_num⟩
  unfold compare_headline_to_article
  rw [if_pos (by decide : vocab "a" "a" = [])]

/-- C9 as amended: the score always lies in `[0, 1]` and the scorer is total
(never raises, the empty-vocabulary failure returning 0); an empty headline or
an empty article scores 0; and identical text with at least one extractable
token (a word of length at least 2) scores exactly 1. -/
theorem compare_bounds_and_identity :
    (∀ h a : String, 0 ≤ compare_headline_to_article h a ∧
      compare_headline_to_article h a ≤ 1)
  ∧ (∀ a : String, compare_headline_to_article "" a = 0)
  ∧ (∀ h : String, compare_headline_to_article h "" = 0)
  ∧ (∀ h : String, tokens h ≠ [] → compare_headline_to_article h h = 1) := by
  refine ⟨?_, ?_, ?_, ?_⟩
  · intro h a
    unfold compare_headline_to_article
    by_cases hv : vocab h a = []
    · rw [if_pos hv]
      norm_num
    · rw [if_neg hv]
      dsimp only
      set D := ∑ t in (vocab h a).toFinset, tfidfWeight h a h t * tfidfWeight h a a t with hD
      set A := ∑ t in (vocab h a).toFinset, tfidfWeight h a h t ^ 2 with hA
      set B := ∑ t in (vocab h a).toFinset, tfidfWeight h a a t ^ 2 with hB
      have hD0 : 0 ≤ D :=
        Finset.sum_nonneg fun t _ =>
          mul_nonneg (tfidfWeight_nonneg h a h t) (tfidfWeight_nonneg h a a t)
      have hA0 : 0 ≤ A := Finset.sum_nonneg fun t _ => sq_nonneg _
      have hB0 : 0 ≤ B := Finset.sum_nonneg fun t _ => sq_nonneg _
      have hden : 0 ≤ Real.sqrt A * Real.sqrt B :=
        mul_nonneg (Real.sqrt_nonneg _) (Real.sqrt_nonneg _)
      refine ⟨div_nonneg hD0 hden, ?_⟩
      rcases eq_or_lt_of_le hden with h0 | h0
      · rw [← h0, div_zero]
        norm_num
      · rw [div_le_one h0]
        have hcs : D ^ 2 ≤ A * B :=
          Finset.sum_mul_sq_le_sq_mul_sq (vocab h a).toFinset
            (fun t => tfidfWeight h a h t) (fun t => tfidfWeight h a a t)
        calc D = Real.sqrt (D ^ 2) := (Real.sqrt_sq hD0).symm
          _ ≤ Real.sqrt (A * B) := Real.sqrt_le_sqrt hcs
          _ = Real.sqrt A * Real.sqrt B := Real.sqrt_mul hA0 B
  · intro a
    unfold compare_headline_to_article
    by_cases hv : vocab "" a = []
    · rw [if_pos hv]
    · rw [if_neg hv]
      dsimp only
      have hz : ∀ t, tfidfWeight "" a "" t = 0 := by
        intro t
        unfold tfidfWeight tf
        norm_num [show tokens "" = [] from rfl]
      simp [hz]
  · intro h
    unfold compare_headline_to_article
    by_cases hv : vocab h "" = []
    · rw [if_pos hv]
    · rw [if_neg hv]
      dsimp only
      have hz : ∀ t, tfidfWeight h "" "" t = 0 := by
        intro t
        unfold tfidfWeight tf
        norm_num [show tokens "" = [] from rfl]
      simp [hz]
  · intro h htok
    rcases eq_or_ne (vocab h h) [] with hv | hv
    · exfalso
      apply htok
      have h2 : tokens h ++ tokens h = [] := (List.dedup_eq_nil (tokens h ++ tokens h)).mp hv
      exact (List.append_eq_nil.mp h2).1
    · unfold compare_headline_to_article
      rw [if_neg hv]
      dsimp only
      obtain ⟨t0, ts, ht0⟩ := List.exists_cons_of_ne_nil htok
      have hmem : t0 ∈ (vocab h h).toFinset := by
        rw [List.mem_toFinset]
        unfold vocab
        rw [List.mem_dedup, List.mem_append]
        left
        rw [ht0]
        exact List.mem_cons_self t0 ts
      have hw0 : 0 < tfidfWeight h h h t0 := by
        unfold tfidfWeight
        have htf : 0 < tf h t0 := by
          unfold tf
          refine List.count_pos_iff_mem.mpr ?_
          rw [ht0]
          exact List.mem_cons_self t0 ts
        have htfr : (0 : ℝ) < (tf h t0 : ℝ) := by exact_mod_cast htf
        have hidf := one_le_idf h h t0
        nlinarith
      have hS : 0 < ∑ t in (vocab h h).toFinset, tfidfWeight h h h t ^ 2 :=
        Finset.sum_pos' (fun i _ => sq_nonneg _) ⟨t0, hmem, pow_pos hw0 2⟩
      rw [show (∑ t in (vocab h h).toFinset, tfidfWeight h h h t * tfidfWeight h h h t) =
          ∑ t in (vocab h h).toFinset, tfidfWeight h h h t ^ 2 from
        Finset.sum_congr rfl fun t _ => (pow_two _).symm]
      rw [Real.mul_self_sqrt hS.le]
      exact div_self hS.ne'

/-- Witness for the amended C9: concrete bounds, zero cases, and the perfect
score on the identical tokenizable string `ab`. -/
theorem compare_bounds_and_identity_witness :
    0 ≤ compare_headline_to_article "ab" "cd"
  ∧ compare_headline_to_article "ab" "cd" ≤ 1
  ∧ compare_headline_to_article "" "xy" = 0
  ∧ compare_headline_to_article "ab" "ab" = 1 :=
  ⟨(compare_bounds_and_identity.1 "ab" "cd").1,
   (compare_bounds_and_identity.1 "ab" "cd").2,
   compare_bounds_and_identity.2.1 "xy",
   compare_bounds_and_identity.2.2.2 "ab" (by decide)⟩
